import Mathlib

/-!
Shallow embedding of the GSR stress-detection sketch
(`src/GSRsensor/sketch_aug11a/sketch_aug11a.ino`).

The sketch reads a raw analog sample each tick, pushes it through two
Kalman filters (a fast signal tracker and a slow baseline tracker), and
calls `detectStress`, which prints a trace line, computes the phasic
signal (fast minus slow), and — when outside the refractory window —
emits a stress event and records its time.

Modelling choices:
* Arduino `double`/`float` values are embedded as exact rationals `ℚ`.
* `millis()` returns `unsigned long` (32-bit); times are `Nat`s and the
  C++ unsigned subtraction `millis() - lastEventTime` is embedded as
  arithmetic modulo 2^32 (`ULONG_MOD`).
* Serial output is recorded as a list of abstract lines.
-/

/-- Modulus of Arduino `unsigned long` arithmetic: 2^32. -/
def ULONG_MOD : Nat := 4294967296

/-- `millis()` at real elapsed time `t` (ms): truncated to `unsigned long`. -/
def millisAt (t : Nat) : Nat := t % ULONG_MOD

/-- `const float PHASIC_THRESHOLD = 13.0;` -/
def PHASIC_THRESHOLD : ℚ := 13

/-- `const int REFRACTORY_PERIOD = 2500;` (ms) -/
def REFRACTORY_PERIOD : Nat := 2500

/-- The C++ expression `millis() - lastEventTime` at time `now`:
unsigned 32-bit subtraction of the stored `lastEventTime` from `millis()`. -/
def elapsedMillis (lastEventTime now : Nat) : Nat :=
  (now % ULONG_MOD + (ULONG_MOD - lastEventTime % ULONG_MOD)) % ULONG_MOD

/-- A stress event record: just its timestamp (the `millis()` value printed). -/
structure StressEvent where
  timestamp : Nat
deriving DecidableEq, Repr

/-- One line of serial output produced by `detectStress`. -/
inductive SerialOut : Type
  /-- The unconditional `"Baseline:..., Signal:..."` trace line. -/
  | baselineSignal (baseline signal : ℚ)
  /-- The `"Stress event detected at timestamp (ms): ..."` line. -/
  | stressEvent (timestamp : Nat)
deriving DecidableEq, Repr

/-- Is this serial line the `"Baseline:..., Signal:..."` trace line? -/
def SerialOut.isBaselineLine : SerialOut → Bool
  | .baselineSignal _ _ => true
  | .stressEvent _ => false

/-- Result of one `detectStress` call: the serial lines printed, the
emitted event (if any), and the value of `lastEventTime` after the call. -/
structure DetectResult where
  serial : List SerialOut
  event : Option StressEvent
  lastEventTime : Nat
deriving DecidableEq, Repr

/-- `void detectStress(double currentSignal, double currentBaseline)`,
with the global `lastEventTime` passed in and returned explicitly and
`now` the real time at which `millis()` is sampled during the call. -/
def detectStress (now : Nat) (currentSignal currentBaseline : ℚ)
    (lastEventTime : Nat) : DetectResult :=
  let traceLine := SerialOut.baselineSignal currentBaseline currentSignal
  let phasicSignal := currentSignal - currentBaseline
  if REFRACTORY_PERIOD < elapsedMillis lastEventTime now then
    if PHASIC_THRESHOLD < phasicSignal then
      { serial := [traceLine, SerialOut.stressEvent (millisAt now)],
        event := some ⟨millisAt now⟩,
        lastEventTime := millisAt now }
    else
      { serial := [traceLine], event := none, lastEventTime := lastEventTime }
  else
    { serial := [traceLine], event := none, lastEventTime := lastEventTime }

/-- Modelled from the spec: the `SimpleKalmanFilter` library by Denys Sene is
not part of this repository's sources (only its constructor calls appear in
the sketch), so the estimator state is modelled from spec §3/§4.1
(`RecursiveEstimator`): current estimate `x`, error covariance `p`,
process-noise parameter `q`, measurement-noise parameter `r`. -/
structure SimpleKalmanFilter where
  x : ℚ
  p : ℚ
  q : ℚ
  r : ℚ
deriving DecidableEq, Repr

/-- The Kalman gain of the next update: `k = pPred / (pPred + r)` with
`pPred = p + q` (spec §4.1 steps 1–2). -/
def SimpleKalmanFilter.kalmanGain (f : SimpleKalmanFilter) : ℚ :=
  (f.p + f.q) / (f.p + f.q + f.r)

/-- Modelled from the spec: `update(rawSample)` of §4.1 — the library's
`updateEstimate` is not in the sources. Predict `pPred = p + q`, gain
`k = pPred / (pPred + r)`, correct `x + k * (rawSample - x)`, covariance
`(1 - k) * pPred`. -/
def SimpleKalmanFilter.updateEstimate (f : SimpleKalmanFilter)
    (rawSample : ℚ) : SimpleKalmanFilter :=
  let pPred := f.p + f.q
  let k := pPred / (pPred + f.r)
  { f with x := f.x + k * (rawSample - f.x), p := (1 - k) * pPred }

/-- `SimpleKalmanFilter gsrKalmanFilter(2, 2, 0.01);` — arguments are
(measurement noise `r`, initial uncertainty `p`, process noise `q`);
the initial estimate of a zero-initialized global object is 0. -/
def gsrKalmanFilter : SimpleKalmanFilter := ⟨0, 2, 1/100, 2⟩

/-- `SimpleKalmanFilter baselineKalmanFilter(10, 10, 0.001);` -/
def baselineKalmanFilter : SimpleKalmanFilter := ⟨0, 10, 1/1000, 10⟩

/-- The sketch's global mutable state: the two filter objects and
`long lastEventTime`. -/
structure LoopState where
  gsrKalmanFilter : SimpleKalmanFilter
  baselineKalmanFilter : SimpleKalmanFilter
  lastEventTime : Nat
deriving DecidableEq, Repr

/-- One iteration of `void loop()`: read `rawValue`, push it through both
filters, and run the detection logic (`now` is the `millis()` time of the
tick; the trailing `delay(50)` only paces the ticks). -/
def loop (st : LoopState) (now : Nat) (rawValue : ℤ) :
    LoopState × DetectResult :=
  let gsr' := st.gsrKalmanFilter.updateEstimate (rawValue : ℚ)
  let fastSignal := gsr'.x
  let base' := st.baselineKalmanFilter.updateEstimate (rawValue : ℚ)
  let slowBaseline := base'.x
  let r := detectStress now fastSignal slowBaseline st.lastEventTime
  ({ gsrKalmanFilter := gsr', baselineKalmanFilter := base',
     lastEventTime := r.lastEventTime }, r)

/-- The per-tick input of one `detectStress` call: the `millis()` time of the
tick and the two filter outputs for that tick. -/
structure TickInput where
  now : Nat
  signal : ℚ
  baseline : ℚ
deriving DecidableEq, Repr

/-- Run the detector over a sequence of ticks, returning the (real) times of
the ticks at which a stress event was emitted. -/
def detectorEventTimes (lastEventTime : Nat) : List TickInput → List Nat
  | [] => []
  | t :: ts =>
    let r := detectStress t.now t.signal t.baseline lastEventTime
    if r.event.isSome then t.now :: detectorEventTimes r.lastEventTime ts
    else detectorEventTimes r.lastEventTime ts

/-! ### Characterization lemmas for `detectStress` -/

/-- The emitted event of a `detectStress` call, as a single conditional. -/
lemma detectStress_event (now : Nat) (s b : ℚ) (last : Nat) :
    (detectStress now s b last).event =
      if REFRACTORY_PERIOD < elapsedMillis last now ∧ PHASIC_THRESHOLD < s - b
      then some ⟨millisAt now⟩ else none := by
  by_cases h1 : REFRACTORY_PERIOD < elapsedMillis last now
  · by_cases h2 : PHASIC_THRESHOLD < s - b
    · simp [detectStress, h1, h2]
    · simp [detectStress, h1, h2]
  · simp [detectStress, h1]

/-- The `lastEventTime` after a `detectStress` call, as a single conditional. -/
lemma detectStress_lastEventTime (now : Nat) (s b : ℚ) (last : Nat) :
    (detectStress now s b last).lastEventTime =
      if REFRACTORY_PERIOD < elapsedMillis last now ∧ PHASIC_THRESHOLD < s - b
      then millisAt now else last := by
  by_cases h1 : REFRACTORY_PERIOD < elapsedMillis last now
  · by_cases h2 : PHASIC_THRESHOLD < s - b
    · simp [detectStress, h1, h2]
    · simp [detectStress, h1, h2]
  · simp [detectStress, h1]

/-- The serial output of a `detectStress` call: the trace line, then the event
line exactly when an event fires. -/
lemma detectStress_serial (now : Nat) (s b : ℚ) (last : Nat) :
    (detectStress now s b last).serial =
      SerialOut.baselineSignal b s ::
        (if REFRACTORY_PERIOD < elapsedMillis last now ∧
            PHASIC_THRESHOLD < s - b
         then [SerialOut.stressEvent (millisAt now)] else []) := by
  by_cases h1 : REFRACTORY_PERIOD < elapsedMillis last now
  · by_cases h2 : PHASIC_THRESHOLD < s - b
    · simp [detectStress, h1, h2]
    · simp [detectStress, h1, h2]
  · simp [detectStress, h1]

/-! ### Arithmetic facts about the unsigned 32-bit elapsed-time computation -/

/-- With no wraparound between `a` and `b`, the unsigned subtraction computes
the real elapsed time reduced modulo 2^32. -/
lemma elapsedMillis_of_le {a b : Nat} (h : a ≤ b) :
    elapsedMillis a b = (b - a) % ULONG_MOD := by
  unfold elapsedMillis ULONG_MOD
  omega

/-- If the unsigned elapsed time strictly exceeds the refractory period, so
does the real elapsed time. -/
lemma refractory_lt_of_elapsed {a b : Nat} (h : a ≤ b)
    (hgt : REFRACTORY_PERIOD < elapsedMillis a b) :
    REFRACTORY_PERIOD < b - a := by
  simp only [elapsedMillis, ULONG_MOD, REFRACTORY_PERIOD] at hgt ⊢
  omega

/-- `elapsedMillis` only depends on the stored time modulo 2^32. -/
lemma elapsedMillis_mod (a b : Nat) :
    elapsedMillis (a % ULONG_MOD) b = elapsedMillis a b := by
  unfold elapsedMillis ULONG_MOD
  omega

/-- A `detectStress` call emits an event iff the unsigned elapsed time strictly
exceeds the refractory period and the phasic signal strictly exceeds the
threshold. -/
lemma detectStress_event_isSome (now : Nat) (s b : ℚ) (last : Nat) :
    (detectStress now s b last).event.isSome = true ↔
      (REFRACTORY_PERIOD < elapsedMillis last now ∧
        PHASIC_THRESHOLD < s - b) := by
  rw [detectStress_event]
  by_cases h : REFRACTORY_PERIOD < elapsedMillis last now ∧
      PHASIC_THRESHOLD < s - b
  · simp [h]
  · simp [h]

/-- After an event at real time `τ1` (stored as `τ1 % 2^32`), every later
event over a time-monotone tick sequence is strictly more than the
refractory period after `τ1`. -/
lemma event_gap_all (ticks : List TickInput) :
    ∀ τ1 : Nat, (∀ t ∈ ticks, τ1 ≤ t.now) →
      List.Pairwise (fun t u => t.now ≤ u.now) ticks →
      ∀ τ2 ∈ detectorEventTimes (τ1 % ULONG_MOD) ticks,
        REFRACTORY_PERIOD < τ2 - τ1 := by
  induction ticks with
  | nil =>
    intro τ1 _ _ τ2 h2
    simp [detectorEventTimes] at h2
  | cons t ts ih =>
    intro τ1 hall hpw τ2 h2
    rw [List.pairwise_cons] at hpw
    have h1 : τ1 ≤ t.now := hall t (List.mem_cons_self t ts)
    simp only [detectorEventTimes] at h2
    by_cases hfire :
        (detectStress t.now t.signal t.baseline (τ1 % ULONG_MOD)).event.isSome
    · rw [if_pos hfire] at h2
      have hcond := (detectStress_event_isSome _ _ _ _).mp hfire
      have hlast :
          (detectStress t.now t.signal t.baseline
            (τ1 % ULONG_MOD)).lastEventTime = t.now % ULONG_MOD := by
        rw [detectStress_lastEventTime, if_pos hcond]
        rfl
      rcases List.mem_cons.mp h2 with h2 | h2
      · subst h2
        have hc1 := hcond.1
        rw [elapsedMillis_mod] at hc1
        exact refractory_lt_of_elapsed h1 hc1
      · rw [hlast] at h2
        have htail := ih t.now hpw.1 hpw.2 τ2 h2
        omega
    · rw [if_neg hfire] at h2
      have hlast :
          (detectStress t.now t.signal t.baseline
            (τ1 % ULONG_MOD)).lastEventTime = τ1 % ULONG_MOD := by
        rw [detectStress_lastEventTime, if_neg]
        intro hcond
        exact hfire ((detectStress_event_isSome _ _ _ _).mpr hcond)
      rw [hlast] at h2
      exact ih τ1 (fun u hu => hall u (List.mem_cons_of_mem _ hu)) hpw.2 τ2 h2

/-- Over any time-monotone tick sequence and any starting detector state, the
emitted event times are pairwise separated by strictly more than the
refractory period. -/
lemma detectorEventTimes_pairwise (ticks : List TickInput) :
    ∀ last : Nat, List.Pairwise (fun t u => t.now ≤ u.now) ticks →
      List.Pairwise (fun τ τ' => REFRACTORY_PERIOD < τ' - τ)
        (detectorEventTimes last ticks) := by
  induction ticks with
  | nil =>
    intro last _
    simp [detectorEventTimes]
  | cons t ts ih =>
    intro last hpw
    rw [List.pairwise_cons] at hpw
    simp only [detectorEventTimes]
    by_cases hfire :
        (detectStress t.now t.signal t.baseline last).event.isSome
    · rw [if_pos hfire]
      have hcond := (detectStress_event_isSome _ _ _ _).mp hfire
      have hlast :
          (detectStress t.now t.signal t.baseline last).lastEventTime =
            t.now % ULONG_MOD := by
        rw [detectStress_lastEventTime, if_pos hcond]
        rfl
      rw [hlast]
      refine List.pairwise_cons.mpr ⟨?_, ih _ hpw.2⟩
      intro τ2 h2
      exact event_gap_all ts t.now hpw.1 hpw.2 τ2 h2
    · rw [if_neg hfire]
      exact ih _ hpw.2

/-! ### Claim theorems -/

/-- C1: for every input sequence with monotone tick times, no two stress
events are emitted with times closer together than the refractory period:
any later event time `τ'` satisfies `τ' - τ > REFRACTORY_PERIOD` for every
earlier event time `τ`. -/
theorem refractory_exclusivity (ticks : List TickInput)
    (hmono : List.Pairwise (fun t u => t.now ≤ u.now) ticks) :
    List.Pairwise (fun τ τ' => REFRACTORY_PERIOD < τ' - τ)
      (detectorEventTimes 0 ticks) :=
  detectorEventTimes_pairwise ticks 0 hmono

/-- Witness for C1: a concrete run — events fire at 3000 and 6000 but not at
4000 (only 1000 ms after the first event), and the separation property holds
on it. -/
theorem refractory_exclusivity_witness :
    detectorEventTimes 0 [⟨3000, 20, 0⟩, ⟨4000, 20, 0⟩, ⟨6000, 20, 0⟩] =
        [3000, 6000] ∧
      List.Pairwise (fun τ τ' => REFRACTORY_PERIOD < τ' - τ)
        (detectorEventTimes 0 [⟨3000, 20, 0⟩, ⟨4000, 20, 0⟩, ⟨6000, 20, 0⟩]) :=
  ⟨by norm_num [detectorEventTimes, detectStress, elapsedMillis, millisAt,
      ULONG_MOD, REFRACTORY_PERIOD, PHASIC_THRESHOLD],
   refractory_exclusivity _ (by norm_num [List.pairwise_cons])⟩

/-- C2: when the detector is ARMED (elapsed time strictly beyond the
refractory period), a phasic value exactly equal to the threshold emits
nothing, and any phasic value strictly above the threshold emits an event. -/
theorem threshold_strict_gt (last now : Nat) (s b : ℚ)
    (harmed : REFRACTORY_PERIOD < elapsedMillis last now) :
    (s - b = PHASIC_THRESHOLD → (detectStress now s b last).event = none) ∧
      (PHASIC_THRESHOLD < s - b →
        (detectStress now s b last).event = some ⟨millisAt now⟩) := by
  constructor
  · intro heq
    rw [detectStress_event, if_neg]
    rintro ⟨-, hlt⟩
    rw [heq] at hlt
    exact lt_irrefl _ hlt
  · intro hlt
    rw [detectStress_event, if_pos ⟨harmed, hlt⟩]

/-- Witness for C2: at time 3000 with `lastEventTime = 0`, phasic 13 is
silent and phasic 14 fires. -/
theorem threshold_strict_gt_witness :
    (detectStress 3000 13 0 0).event = none ∧
      (detectStress 3000 14 0 0).event = some ⟨3000⟩ := by
  constructor
  · exact (threshold_strict_gt 0 3000 13 0 (by decide)).1
      (by norm_num [PHASIC_THRESHOLD])
  · have h := (threshold_strict_gt 0 3000 14 0 (by decide)).2
      (by norm_num [PHASIC_THRESHOLD])
    simpa [millisAt, ULONG_MOD] using h

/-- C3 counterexample: 100 ms after startup (with `lastEventTime = 0` and no
prior event), a phasic value of 20 — strictly above the threshold 13 — emits
no event, because `millis() - 0 = 100` does not exceed the 2500 ms refractory
period. The claim that the first above-threshold tick fires "regardless of
how little time has elapsed since startup" is false. -/
theorem startup_not_armed_counterexample :
    PHASIC_THRESHOLD < (20 : ℚ) - 0 ∧
      (detectStress 100 20 0 0).event = none := by
  constructor
  · norm_num [PHASIC_THRESHOLD]
  · rw [detectStress_event, if_neg]
    rintro ⟨h, -⟩
    exact absurd h (by decide)

/-- C3 (amended): with `lastEventTime` initialized to 0, a tick (within the
first 2^32 ms) emits an event iff its time strictly exceeds the refractory
period AND its phasic value strictly exceeds the threshold — so the detector
only becomes ARMED once 2500 ms have elapsed since boot, not immediately. -/
theorem startup_armed_iff (now : Nat) (s b : ℚ) (hnow : now < ULONG_MOD) :
    (detectStress now s b 0).event.isSome = true ↔
      (REFRACTORY_PERIOD < now ∧ PHASIC_THRESHOLD < s - b) := by
  rw [detectStress_event_isSome]
  have h0 : elapsedMillis 0 now = now := by
    simp only [elapsedMillis, ULONG_MOD] at hnow ⊢
    omega
  rw [h0]

/-- Witness for C3 (amended): at 3000 ms after boot, phasic 20 fires. -/
theorem startup_armed_iff_witness :
    (detectStress 3000 20 0 0).event.isSome = true :=
  (startup_armed_iff 3000 20 0 (by decide)).mpr
    ⟨by decide, by norm_num [PHASIC_THRESHOLD]⟩

/-- C4: whenever `detectStress` emits an event, the (real) elapsed time since
the last event strictly exceeds the refractory period, and the last-event
timestamp is updated to the current time (which is also the event's
timestamp). -/
theorem fire_invariant (last now : Nat) (s b : ℚ) (e : StressEvent)
    (hle : last ≤ now) (hlt : now < ULONG_MOD)
    (hfire : (detectStress now s b last).event = some e) :
    REFRACTORY_PERIOD < now - last ∧
      (detectStress now s b last).lastEventTime = now ∧
      e.timestamp = now := by
  rw [detectStress_event] at hfire
  by_cases h : REFRACTORY_PERIOD < elapsedMillis last now ∧
      PHASIC_THRESHOLD < s - b
  · rw [if_pos h] at hfire
    have h1 := refractory_lt_of_elapsed hle h.1
    have hm : millisAt now = now := Nat.mod_eq_of_lt hlt
    obtain rfl := Option.some.inj hfire
    refine ⟨h1, ?_, hm⟩
    rw [detectStress_lastEventTime, if_pos h, hm]
  · rw [if_neg h] at hfire
    exact absurd hfire (by simp)

/-- Witness for C4: the event fired at time 3000 from `lastEventTime = 0`
updates the state to 3000 and exceeds the refractory period. -/
theorem fire_invariant_witness :
    REFRACTORY_PERIOD < 3000 - 0 ∧
      (detectStress 3000 20 0 0).lastEventTime = 3000 ∧
      (⟨3000⟩ : StressEvent).timestamp = 3000 :=
  fire_invariant 0 3000 20 0 ⟨3000⟩ (by decide) (by decide)
    (by norm_num [detectStress, elapsedMillis, millisAt, ULONG_MOD,
      REFRACTORY_PERIOD, PHASIC_THRESHOLD])

/-- C5: an elapsed time exactly equal to the refractory period still emits
nothing (regardless of the phasic value), and an event can only be emitted
once the elapsed time strictly exceeds the refractory period. -/
theorem refractory_edge_no_fire (last now : Nat) (s b : ℚ)
    (hle : last ≤ now) :
    (now - last = REFRACTORY_PERIOD →
        (detectStress now s b last).event = none) ∧
      ((detectStress now s b last).event.isSome = true →
        REFRACTORY_PERIOD < now - last) := by
  constructor
  · intro heq
    rw [detectStress_event, if_neg]
    rintro ⟨h, -⟩
    have h2 := refractory_lt_of_elapsed hle h
    omega
  · intro hsome
    have h := (detectStress_event_isSome _ _ _ _).mp hsome
    exact refractory_lt_of_elapsed hle h.1

/-- Witness for C5: at exactly 2500 ms elapsed, even a phasic value of 100
emits nothing. -/
theorem refractory_edge_no_fire_witness :
    (detectStress 2500 100 0 0).event = none :=
  (refractory_edge_no_fire 0 2500 100 0 (by decide)).1 (by decide)

/-- C6: each `loop` iteration pushes the same raw sample independently into
both filters, and passes exactly their two outputs — fast signal first, slow
baseline second — to `detectStress` together with the current
`lastEventTime`. -/
theorem loop_dataflow (st : LoopState) (now : Nat) (raw : ℤ) :
    (loop st now raw).1.gsrKalmanFilter =
        st.gsrKalmanFilter.updateEstimate (raw : ℚ) ∧
      (loop st now raw).1.baselineKalmanFilter =
        st.baselineKalmanFilter.updateEstimate (raw : ℚ) ∧
      (loop st now raw).2 =
        detectStress now (st.gsrKalmanFilter.updateEstimate (raw : ℚ)).x
          (st.baselineKalmanFilter.updateEstimate (raw : ℚ)).x
          st.lastEventTime :=
  ⟨rfl, rfl, rfl⟩

/-- C8 (estimator modelled from the spec — library source absent): the update
follows the predict/gain/correct/covariance cycle; with positive noise
parameters and non-negative covariance the gain lies strictly in (0,1) and
the updated estimate lies between the prior estimate and the raw sample. -/
theorem updateEstimate_kalman_cycle (f : SimpleKalmanFilter) (raw : ℚ)
    (hq : 0 < f.q) (hr : 0 < f.r) (hp : 0 ≤ f.p) :
    0 < f.kalmanGain ∧ f.kalmanGain < 1 ∧
      (f.updateEstimate raw).x = f.x + f.kalmanGain * (raw - f.x) ∧
      (f.updateEstimate raw).p = (1 - f.kalmanGain) * (f.p + f.q) ∧
      min f.x raw ≤ (f.updateEstimate raw).x ∧
      (f.updateEstimate raw).x ≤ max f.x raw := by
  have hpP : 0 < f.p + f.q := by linarith
  have hden : 0 < f.p + f.q + f.r := by linarith
  have hk0 : 0 < f.kalmanGain := div_pos hpP hden
  have hk1 : f.kalmanGain < 1 := by
    rw [SimpleKalmanFilter.kalmanGain, div_lt_one hden]
    linarith
  have hx : (f.updateEstimate raw).x = f.x + f.kalmanGain * (raw - f.x) := rfl
  refine ⟨hk0, hk1, hx, rfl, ?_, ?_⟩
  · rw [hx]
    rcases le_total f.x raw with hc | hc
    · rw [min_eq_left hc]
      nlinarith
    · rw [min_eq_right hc]
      nlinarith
  · rw [hx]
    rcases le_total f.x raw with hc | hc
    · rw [max_eq_right hc]
      nlinarith
    · rw [max_eq_left hc]
      nlinarith

/-- Witness for C8: the fast filter instance `(2, 2, 0.01)` updated with the
sample 5. -/
theorem updateEstimate_kalman_cycle_witness :
    0 < gsrKalmanFilter.kalmanGain ∧ gsrKalmanFilter.kalmanGain < 1 ∧
      (gsrKalmanFilter.updateEstimate 5).x =
        gsrKalmanFilter.x +
          gsrKalmanFilter.kalmanGain * (5 - gsrKalmanFilter.x) ∧
      (gsrKalmanFilter.updateEstimate 5).p =
        (1 - gsrKalmanFilter.kalmanGain) *
          (gsrKalmanFilter.p + gsrKalmanFilter.q) ∧
      min gsrKalmanFilter.x 5 ≤ (gsrKalmanFilter.updateEstimate 5).x ∧
      (gsrKalmanFilter.updateEstimate 5).x ≤ max gsrKalmanFilter.x 5 :=
  updateEstimate_kalman_cycle gsrKalmanFilter 5
    (by norm_num [gsrKalmanFilter]) (by norm_num [gsrKalmanFilter])
    (by norm_num [gsrKalmanFilter])

/-- C9: a `detectStress` call that emits no event leaves `lastEventTime`
unchanged. -/
theorem silent_preserves_lastEventTime (last now : Nat) (s b : ℚ)
    (hnone : (detectStress now s b last).event = none) :
    (detectStress now s b last).lastEventTime = last := by
  rw [detectStress_event] at hnone
  rw [detectStress_lastEventTime]
  by_cases h : REFRACTORY_PERIOD < elapsedMillis last now ∧
      PHASIC_THRESHOLD < s - b
  · rw [if_pos h] at hnone
    exact absurd hnone (by simp)
  · rw [if_neg h]

/-- Witness for C9: a silent call (still in the refractory window) keeps
`lastEventTime = 0`. -/
theorem silent_preserves_lastEventTime_witness :
    (detectStress 100 20 0 0).lastEventTime = 0 :=
  silent_preserves_lastEventTime 0 100 20 0
    (by norm_num [detectStress, elapsedMillis, ULONG_MOD, REFRACTORY_PERIOD])

/-- C10: every `detectStress` call prints the `"Baseline:..., Signal:..."`
line first, and prints exactly one such line, whether or not an event
fires. -/
theorem trace_line_every_call (last now : Nat) (s b : ℚ) :
    (detectStress now s b last).serial.head? =
        some (SerialOut.baselineSignal b s) ∧
      ((detectStress now s b last).serial.countP
          (fun o => o.isBaselineLine)) = 1 := by
  rw [detectStress_serial]
  refine ⟨rfl, ?_⟩
  by_cases h : REFRACTORY_PERIOD < elapsedMillis last now ∧
      PHASIC_THRESHOLD < s - b
  · rw [if_pos h]
    simp [List.countP_cons, SerialOut.isBaselineLine]
  · rw [if_neg h]
    simp [List.countP_cons, SerialOut.isBaselineLine]
